import Mathlib

/-!
Verification of the size-targeted transcode planner of VideoSizeClipper
(src/app.py), shallowly embedded in Lean 4.

Modelling conventions:
* Python floats are modelled as exact rationals (ℚ).
* Python `int(x)` truncates toward zero; it is modelled by `truncQ`.
  Python `x // y` on nonnegative floats is `Int.floor` of the quotient.
* `math.sqrt` appears in the source only under `int((width * scale_factor)
  // 2 * 2)`, i.e. only its floor is observable.  `floorSqrtQ` computes that
  floor exactly over ℚ (the bridging lemmas `floorSqrtQ_eq_floor_real_sqrt`
  and `scaled_dim_eq_real` relate it to `Real.sqrt`).
* Command argument vectors are lists of the inductive `Arg`, which keeps the
  source's value categories apart: literal strings, numbers rendered by the
  format `%.3f`, bitrates rendered as `<n>k`, filesystem paths, and the
  scale filter expression `scale=<w>:<h>:flags=lanczos` carrying its two
  dimensions.
* `tkinter` message boxes and the status bar are modelled by the
  `ExportReport` value the export handler ends in; the two external
  `ffmpeg` processes are modelled by a runner function passed to
  `on_export_encode`, which also records the list of invocations made.
-/

/-- Python `int(x)` on a float: truncation toward zero.  For a rational this
is the truncating division of the numerator by the (positive) denominator. -/
def truncQ (q : ℚ) : ℤ := q.num.tdiv q.den

/-- Python `a % b` on floats (used with positive `b` only in the source):
`a - b * floor(a / b)`. -/
def pymod (a b : ℚ) : ℚ := a - b * ⌊a / b⌋

/-- The effect of rendering a float with the Python format `%.3f` and
reading it back: rounding to three decimal places.  (CPython rounds the
underlying double half-to-even; on exact rationals we use `round`, which
only differs on exact half-millisecond ties and satisfies the same
half-millisecond error bound.) -/
def roundTo3 (q : ℚ) : ℚ := (round (q * 1000) : ℚ) / 1000

/-- Floor of the real square root, computed exactly over ℚ (see
`floorSqrtQ_eq_floor_real_sqrt`). -/
def floorSqrtQ (q : ℚ) : ℕ := Nat.sqrt ⌊q⌋.toNat

/-- A time string accepted by `parse_time_to_seconds` (src/app.py lines
78-94), abstracted over the numeral rendering: the empty string, a plain
seconds value, `MM:SS`, or `HH:MM:SS` (each field an arbitrary float).
Strings with more than three `:`-separated parts raise `ValueError` in the
source and are not represented. -/
inductive TimeText where
  | empty : TimeText
  | secondsOnly (s : ℚ) : TimeText
  | minSec (m s : ℚ) : TimeText
  | hourMinSec (h m s : ℚ) : TimeText
deriving DecidableEq

/-- Embedding of `parse_time_to_seconds` (src/app.py lines 78-94): empty
input parses to 0, two parts are minutes:seconds, three parts are
hours:minutes:seconds. -/
def parse_time_to_seconds : TimeText → ℚ
  | .empty => 0
  | .secondsOnly s => s
  | .minSec m s => m * 60 + s
  | .hourMinSec h m s => h * 3600 + m * 60 + s

/-- Embedding of `format_seconds_to_time` (src/app.py lines 97-105).
Negative input is clamped to 0; `hours = int(value // 3600)`,
`minutes = int((value % 3600) // 60)`, `seconds = value % 60` rendered with
`%06.3f` (three decimal places, modelled by `roundTo3`); the `HH:` field is
emitted only when `hours > 0`. -/
def format_seconds_to_time (value : ℚ) : TimeText :=
  let v := if value < 0 then 0 else value
  let hours : ℤ := ⌊v / 3600⌋
  let minutes : ℤ := ⌊pymod v 3600 / 60⌋
  let seconds : ℚ := pymod v 60
  if 0 < hours then .hourMinSec hours minutes (roundTo3 seconds)
  else .minSec minutes (roundTo3 seconds)

/-- Embedding of `compute_target_bitrates` (src/app.py lines 167-182).
`target_bits = target_size_mb * 1024 * 1024 * 8 * container_overhead_ratio`;
the audio guess is 10% of the budget clamped between the feasible audio
bits of the clip at the floor and ceiling rates; `audio_kbps` is the
truncated per-second rate clamped to `[min_audio_kbps, max_audio_kbps]`;
video receives the remainder with a 1 Mbit absolute floor and a 100 kbps
rate floor.  Returns `(video_kbps, audio_kbps)`.  Python defaults:
`min_audio_kbps = 48`, `max_audio_kbps = 160`,
`container_overhead_ratio = 0.98`. -/
def compute_target_bitrates (clip_seconds target_size_mb : ℚ)
    (min_audio_kbps max_audio_kbps : ℤ) (container_overhead_ratio : ℚ) :
    ℤ × ℤ :=
  let target_bits := target_size_mb * 1024 * 1024 * 8 * container_overhead_ratio
  let audio_bits_guess :=
    max (min (target_bits * (1/10)) ((max_audio_kbps : ℚ) * 1000 * clip_seconds))
      ((min_audio_kbps : ℚ) * 1000 * clip_seconds)
  let audio_kbps :=
    max (min (truncQ (audio_bits_guess / 1000 / clip_seconds)) max_audio_kbps) min_audio_kbps
  let video_bits_available :=
    max (target_bits - (audio_kbps : ℚ) * 1000 * clip_seconds) (1000 * 1000)
  let video_kbps := max (truncQ (video_bits_available / 1000 / clip_seconds)) 100
  (video_kbps, audio_kbps)

/-- The allocator `compute_target_bitrates` at its Python default arguments, as called by
`on_export` (src/app.py line 500). -/
def compute_target_bitrates_default (clip_seconds target_size_mb : ℚ) : ℤ × ℤ :=
  compute_target_bitrates clip_seconds target_size_mb 48 160 (98/100)

/-- Integer `clamp(x, lo, hi)`, spelled as the source spells it:
`max(min(x, hi), lo)`. -/
def clampI (x lo hi : ℤ) : ℤ := max (min x hi) lo

/-- Rational `clamp(x, lo, hi)`, same orientation. -/
def clampQ (x lo hi : ℚ) : ℚ := max (min x hi) lo

/-- Embedding of `choose_scaling_for_bitrate` (src/app.py lines 185-200).
The Python guard `not width or not height or not fps or fps <= 0` is taken
when a field is `None` (the `Option.none` cases) or when `width`/`height`
is `0` or `fps <= 0`.  Otherwise
`bits_per_pixel = video_kbps * 1000 / (width * height * fps)`; if it is at
least the 0.06 threshold no scaling is advised; else the source computes
`scale_factor = math.sqrt(bits_per_pixel / 0.06)` and
`new_w = max(160, int((width * scale_factor) // 2 * 2))` (likewise for the
height).  Since `(width * scale_factor / 2)^2 =
width^2 * bits_per_pixel * 25 / 6`, that inner floor equals
`floorSqrtQ (width^2 * bits_per_pixel * 25 / 6)` (lemma
`scaled_dim_eq_real`).  The source returns the string
`scale=<new_w>:<new_h>:flags=lanczos`; we model its payload `(new_w, new_h)`.
`video_kbps` is nonnegative at every call site (`compute_target_bitrates`
floors it at 100), so it is taken as ℕ. -/
def choose_scaling_for_bitrate (width height : Option ℕ) (fps : Option ℚ)
    (video_kbps : ℕ) : Option (ℕ × ℕ) :=
  match width, height, fps with
  | some w, some h, some f =>
    if w = 0 ∨ h = 0 ∨ f ≤ 0 then none
    else
      let bits_per_pixel : ℚ := ((video_kbps : ℚ) * 1000) / ((w : ℚ) * (h : ℚ) * f)
      if (6/100 : ℚ) ≤ bits_per_pixel then none
      else
        let new_w := max 160 (2 * floorSqrtQ ((w : ℚ) ^ 2 * bits_per_pixel * 25 / 6))
        let new_h := max 160 (2 * floorSqrtQ ((h : ℚ) ^ 2 * bits_per_pixel * 25 / 6))
        if new_w < w ∧ new_h < h then some (new_w, new_h) else none
  | _, _, _ => none

/-- The Downscale Advisor exactly as claim C4 words it (no explicit
zero-dimension guard: absent on a missing field or `frame_rate ≤ 0`, absent
when `bits_per_pixel ≥ 0.06`, else the even floored dimensions, returned
only when both strictly shrink). -/
def advise_claim (width height : Option ℕ) (fps : Option ℚ)
    (video_kbps : ℕ) : Option (ℕ × ℕ) :=
  match width, height, fps with
  | some w, some h, some f =>
    if f ≤ 0 then none
    else
      let bits_per_pixel : ℚ := ((video_kbps : ℚ) * 1000) / ((w : ℚ) * (h : ℚ) * f)
      if (6/100 : ℚ) ≤ bits_per_pixel then none
      else
        let new_w := max 160 (2 * floorSqrtQ ((w : ℚ) ^ 2 * bits_per_pixel * 25 / 6))
        let new_h := max 160 (2 * floorSqrtQ ((h : ℚ) ^ 2 * bits_per_pixel * 25 / 6))
        if new_w < w ∧ new_h < h then some (new_w, new_h) else none
  | _, _, _ => none

/-- Target resolution effectively encoded at: the advised plan when
present, the source resolution when absent. -/
def effectiveDims (w h : ℕ) : Option (ℕ × ℕ) → ℕ × ℕ
  | none => (w, h)
  | some p => p

/-- A `pathlib.Path`, modelled as stem (directories and base name) plus
final suffix; `with_suffix` replaces the suffix. -/
structure PyPath where
  stem : String
  ext : String
deriving DecidableEq

/-- Python `Path.with_suffix`: replace the final suffix. -/
def PyPath.with_suffix (p : PyPath) (e : String) : PyPath := ⟨p.stem, e⟩

/-- One element of an ffmpeg argument vector.  Constructors keep the value
categories of the source apart: `lit` for literal strings (flags and fixed
values), `num3` for a float rendered by the `%.3f` format, `kval` for a
bitrate rendered as `<n>k`, `pathArg` for a path rendered by `str(...)`,
and `filterArg` for the expression `scale=<w>:<h>:flags=lanczos`. -/
inductive Arg where
  | lit (s : String) : Arg
  | num3 (q : ℚ) : Arg
  | kval (n : ℤ) : Arg
  | pathArg (p : PyPath) : Arg
  | filterArg (w h : ℕ) : Arg
deriving DecidableEq

/-- Embedding of `build_two_pass_commands` (src/app.py lines 203-272).
`isWindows` models `os.name == "nt"` (pass 1 discards output to `NUL` or
`/dev/null`). -/
def build_two_pass_commands (isWindows : Bool) (src dst : PyPath)
    (ss duration : Option ℚ) (video_kbps audio_kbps : ℤ)
    (scale_filter : Option (ℕ × ℕ)) : List Arg × List Arg :=
  let vf : List Arg :=
    match scale_filter with
    | some p => [.lit "-vf", .filterArg p.1 p.2]
    | none => []
  let range_args : List Arg :=
    (match ss with
     | some v => [.lit "-ss", .num3 v]
     | none => []) ++
    (match duration with
     | some v => [.lit "-t", .num3 v]
     | none => [])
  let logfile := dst.with_suffix ".log"
  let pass1 : List Arg :=
    [.lit "ffmpeg", .lit "-y"] ++ range_args ++ [.lit "-i", .pathArg src] ++ vf ++
    [.lit "-c:v", .lit "libx264", .lit "-b:v", .kval video_kbps,
     .lit "-pass", .lit "1", .lit "-preset", .lit "medium",
     .lit "-pix_fmt", .lit "yuv420p", .lit "-an", .lit "-f", .lit "mp4",
     .lit "-passlogfile", .pathArg logfile,
     .lit (if isWindows then "NUL" else "/dev/null")]
  let pass2 : List Arg :=
    [.lit "ffmpeg", .lit "-y"] ++ range_args ++ [.lit "-i", .pathArg src] ++ vf ++
    [.lit "-c:v", .lit "libx264", .lit "-b:v", .kval video_kbps,
     .lit "-pass", .lit "2", .lit "-preset", .lit "medium",
     .lit "-pix_fmt", .lit "yuv420p", .lit "-c:a", .lit "aac",
     .lit "-b:a", .kval audio_kbps, .lit "-movflags", .lit "+faststart",
     .lit "-passlogfile", .pathArg logfile, .pathArg dst]
  (pass1, pass2)

/-- The command-construction slice of `VideoClipperApp.on_export`
(src/app.py lines 511-519): build both passes with the parsed start and the
computed clip duration (both always passed, never `None`), then, when
`audio_kbps <= 64`, splice `-ac 1` into pass 2 just before the output path
(`pass2[len(pass2)-1 : len(pass2)-1] = ["-ac", "1"]`). -/
def on_export_commands (isWindows : Bool) (src dst : PyPath)
    (start_s clip_seconds : ℚ) (video_kbps audio_kbps : ℤ)
    (scale_filter : Option (ℕ × ℕ)) : List Arg × List Arg :=
  let pair := build_two_pass_commands isWindows src dst (some start_s)
    (some clip_seconds) video_kbps audio_kbps scale_filter
  if audio_kbps ≤ 64 then
    let insert_idx := pair.2.length - 1
    (pair.1, pair.2.take insert_idx ++ [.lit "-ac", .lit "1"] ++ pair.2.drop insert_idx)
  else pair

/-- Result of `run_command` (src/app.py lines 72-75): exit code, captured
standard output, captured standard error. -/
structure RunResult where
  code : ℤ
  out : String
  err : String
deriving DecidableEq

/-- Python `a or b` on strings: `b` when `a` is empty (falsy), else `a`. -/
def strOr (a b : String) : String := if a = "" then b else a

/-- Terminal report of the export handler: which message box or status text
ends the run. -/
inductive ExportReport where
  | pass1Error (detail : String) : ExportReport
  | pass2Error (detail : String) : ExportReport
  | doneWarned : ExportReport
  | doneClean : ExportReport
  | doneNoSize : ExportReport
deriving DecidableEq

/-- An export counts as succeeded when it reaches the final `Done` status,
with or without the size-deviation advisory. -/
def ExportReport.succeeded : ExportReport → Bool
  | .pass1Error _ => false
  | .pass2Error _ => false
  | _ => true

/-- The `deviation_ratio` of the spec:
`abs(final_size - target_bytes) / max(target_bytes, 1)` with
`target_bytes = int(target_mb * 1024 * 1024)` (src/app.py lines 540-542). -/
def deviation_ratio (final_size : ℕ) (target_mb : ℚ) : ℚ :=
  let target_bytes : ℤ := truncQ (target_mb * 1024 * 1024)
  ((|(final_size : ℤ) - target_bytes| : ℤ) : ℚ) / ((max target_bytes 1 : ℤ) : ℚ)

/-- The process-running slice of `VideoClipperApp.on_export` (src/app.py
lines 520-545): run pass 1; on a non-zero exit show the pass-1 error box
with `err1 or out1` and return (pass 2 is never spawned).  Otherwise run
pass 2; on a non-zero exit show the pass-2 error box with `err2 or out2`.
On success, read the destination size (`none` models `dst.stat()` raising,
which the source swallows into a plain `Done` status) and show the size
advisory exactly when the deviation ratio exceeds 0.08.  `run` models
`run_command`; the second component records the invocations performed, in
order. -/
def on_export_encode (run : List Arg → RunResult) (pass1 pass2 : List Arg)
    (final_size : Option ℕ) (target_mb : ℚ) : ExportReport × List (List Arg) :=
  let r1 := run pass1
  if r1.code ≠ 0 then (.pass1Error (strOr r1.err r1.out), [pass1])
  else
    let r2 := run pass2
    if r2.code ≠ 0 then (.pass2Error (strOr r2.err r2.out), [pass1, pass2])
    else
      match final_size with
      | none => (.doneNoSize, [pass1, pass2])
      | some sz =>
        if (8/100 : ℚ) < deviation_ratio sz target_mb then (.doneWarned, [pass1, pass2])
        else (.doneClean, [pass1, pass2])

/-- The Bitrate Allocator exactly as claim C1 words it, at the default
parameters: `target_bits = target_size_mb * 8,388,608 * 0.98`, the audio
guess clamped between the floor and ceiling audio bits, `audio_kbps` and
`video_kbps` obtained with arithmetic rounding to the nearest integer
(`round`). -/
def allocate_spec_round (c m : ℚ) : ℤ × ℤ :=
  let target_bits := m * 8388608 * (98/100)
  let audio_bits_guess := clampQ (target_bits * (1/10)) (48 * 1000 * c) (160 * 1000 * c)
  let audio_kbps := clampI (round (audio_bits_guess / 1000 / c)) 48 160
  let video_bits_available := max (target_bits - (audio_kbps : ℚ) * 1000 * c) 1000000
  let video_kbps := max (round (video_bits_available / 1000 / c)) 100
  (video_kbps, audio_kbps)

/-- Claim C1 as amended: the same step-by-step formulas with the two
integer conversions being truncation toward zero (Python `int`) instead of
arithmetic rounding. -/
def allocate_spec_trunc (c m : ℚ) : ℤ × ℤ :=
  let target_bits := m * 8388608 * (98/100)
  let audio_bits_guess := clampQ (target_bits * (1/10)) (48 * 1000 * c) (160 * 1000 * c)
  let audio_kbps := clampI (truncQ (audio_bits_guess / 1000 / c)) 48 160
  let video_bits_available := max (target_bits - (audio_kbps : ℚ) * 1000 * c) 1000000
  let video_kbps := max (truncQ (video_bits_available / 1000 / c)) 100
  (video_kbps, audio_kbps)

/-! ## Helper lemmas -/

theorem truncQ_of_nonneg {q : ℚ} (h : 0 ≤ q) : truncQ q = ⌊q⌋ := by
  rw [truncQ, Rat.floor_def]
  exact Int.tdiv_eq_ediv (Rat.num_nonneg.mpr h) (Int.natCast_nonneg _)

theorem truncQ_eval {q : ℚ} {n : ℤ} (h0 : 0 ≤ q) (h1 : (n : ℚ) ≤ q) (h2 : q < n + 1) :
    truncQ q = n := by
  rw [truncQ_of_nonneg h0]
  exact Int.floor_eq_iff.mpr ⟨h1, h2⟩

@[simp] theorem truncQ_ofNat (n : ℕ) [n.AtLeastTwo] :
    truncQ (no_index (OfNat.ofNat n) : ℚ) = OfNat.ofNat n := by
  rw [truncQ, Rat.num_ofNat, Rat.den_ofNat]
  simp

theorem roundQ_eval {q : ℚ} {n : ℤ} (h1 : (n : ℚ) ≤ q + 1/2) (h2 : q + 1/2 < n + 1) :
    round q = n := by
  rw [round_eq]
  exact Int.floor_eq_iff.mpr ⟨h1, h2⟩

/-! ## Claims about the Bitrate Allocator -/

/-- C1 (counterexample): at `clip_seconds = 1`, `target_size_mb = 1` the
source computes `video_kbps = 8060` (truncation of 8060.83584) while the
claim's arithmetic-rounding formula yields 8061, so the claim as stated is
false. -/
theorem allocate_round_claim_false :
    compute_target_bitrates_default 1 1 = (8060, 160) ∧
      allocate_spec_round 1 1 = (8061, 160) := by
  constructor
  · have hv : truncQ (25190112/3125 : ℚ) = 8060 :=
      truncQ_eval (by norm_num) (by norm_num) (by norm_num)
    simp only [compute_target_bitrates_default, compute_target_bitrates]
    norm_num [min_def, max_def, hv]
  · have hv : round (25190112/3125 : ℚ) = 8061 :=
      roundQ_eval (by norm_num) (by norm_num)
    have hr : round (160000/1000/1 : ℚ) = 160 := roundQ_eval (by norm_num) (by norm_num)
    simp only [allocate_spec_round, clampI, clampQ]
    norm_num [min_def, max_def, hv, hr]

/-- C1 (amended): for every `clip_seconds > 0` and `target_size_mb > 0`,
`compute_target_bitrates` at its defaults computes exactly the claim's
step-by-step formulas with the two integer conversions being truncation
toward zero (Python `int`) instead of arithmetic rounding. -/
theorem allocate_formula_trunc (c m : ℚ) (hc : 0 < c) (hm : 0 < m) :
    compute_target_bitrates_default c m = allocate_spec_trunc c m := by
  have h8 : m * 1024 * 1024 * 8 * (98/100) = m * 8388608 * (98/100) := by ring
  have h160 : ((160 : ℤ) : ℚ) = 160 := by norm_num
  have h48 : ((48 : ℤ) : ℚ) = 48 := by norm_num
  have hmm : (1000 : ℚ) * 1000 = 1000000 := by norm_num
  simp only [compute_target_bitrates_default, compute_target_bitrates,
    allocate_spec_trunc, clampI, clampQ, h8, h160, h48, hmm]

/-- Witness for `allocate_formula_trunc` at `clip_seconds = 60`,
`target_size_mb = 10`. -/
theorem allocate_formula_trunc_witness :
    compute_target_bitrates_default 60 10 = allocate_spec_trunc 60 10 :=
  allocate_formula_trunc 60 10 (by norm_num) (by norm_num)

/-- C2: for every `clip_seconds > 0` and `target_size_mb > 0` (and any
audio floor `lo` and ceiling `hi` with `lo ≤ hi`, defaults 48 and 160), the
returned plan has `audio_kbps ∈ [lo, hi]` and `video_kbps ≥ 100`. -/
theorem allocate_bounds (c m : ℚ) (lo hi : ℤ) (r : ℚ)
    (hc : 0 < c) (hm : 0 < m) (hlohi : lo ≤ hi) :
    lo ≤ (compute_target_bitrates c m lo hi r).2 ∧
      (compute_target_bitrates c m lo hi r).2 ≤ hi ∧
      100 ≤ (compute_target_bitrates c m lo hi r).1 := by
  refine ⟨le_max_right _ _, max_le (min_le_right _ _) hlohi, le_max_right _ _⟩

/-- Witness for `allocate_bounds` at the default audio bounds,
`clip_seconds = 60`, `target_size_mb = 10`. -/
theorem allocate_bounds_witness :
    48 ≤ (compute_target_bitrates 60 10 48 160 (98/100)).2 ∧
      (compute_target_bitrates 60 10 48 160 (98/100)).2 ≤ 160 ∧
      100 ≤ (compute_target_bitrates 60 10 48 160 (98/100)).1 :=
  allocate_bounds 60 10 48 160 (98/100) (by norm_num) (by norm_num) (by norm_num)

/-! ## Claims about the Time Parser/Formatter -/

/-- Rendering a float with three decimal places changes it by at most half
a millisecond. -/
theorem roundTo3_err (x : ℚ) : |roundTo3 x - x| ≤ 1/2000 := by
  have h : |(round (x * 1000) : ℚ) - x * 1000| ≤ 1/2 := by
    rw [abs_sub_comm]; exact abs_sub_round (x * 1000)
  have e : roundTo3 x - x = ((round (x * 1000) : ℚ) - x * 1000) / 1000 := by
    rw [roundTo3]; ring
  rw [e, abs_div]
  have h1000 : |(1000 : ℚ)| = 1000 := by norm_num
  rw [h1000]
  calc |(round (x * 1000) : ℚ) - x * 1000| / 1000 ≤ (1/2) / 1000 := by gcongr
    _ = 1/2000 := by norm_num

/-- The fields of `format_seconds_to_time` recompose to the input before
millisecond rounding. -/
theorem format_fields_recompose (s : ℚ) :
    ((⌊s / 3600⌋ : ℚ) * 3600) + ((⌊pymod s 3600 / 60⌋ : ℚ) * 60) + pymod s 60 = s := by
  have e1 : pymod s 3600 / 60 = s / 60 - ((60 * ⌊s / 3600⌋ : ℤ) : ℚ) := by
    rw [pymod]; push_cast; ring
  rw [e1, Int.floor_sub_int]
  rw [pymod]
  push_cast
  ring

/-- C3: for every `s` with `0 ≤ s < 360000` (below 100 hours),
`parse_time(format_seconds(s))` differs from `s` by at most 0.001
seconds. -/
theorem parse_format_roundtrip (s : ℚ) (h0 : 0 ≤ s) (h1 : s < 360000) :
    |parse_time_to_seconds (format_seconds_to_time s) - s| ≤ 1/1000 := by
  have hkey := format_fields_recompose s
  have hb := roundTo3_err (pymod s 60)
  simp only [format_seconds_to_time, if_neg (not_lt.mpr h0)]
  split_ifs with hh
  · simp only [parse_time_to_seconds]
    have e : (⌊s / 3600⌋ : ℚ) * 3600 + (⌊pymod s 3600 / 60⌋ : ℚ) * 60 +
        roundTo3 (pymod s 60) - s = roundTo3 (pymod s 60) - pymod s 60 := by
      linarith
    rw [e]
    linarith
  · have hzero : ⌊s / 3600⌋ = 0 := by
      have : (0 : ℤ) ≤ ⌊s / 3600⌋ := Int.floor_nonneg.mpr (by positivity)
      omega
    simp only [parse_time_to_seconds]
    rw [hzero] at hkey
    have e : (⌊pymod s 3600 / 60⌋ : ℚ) * 60 + roundTo3 (pymod s 60) - s =
        roundTo3 (pymod s 60) - pymod s 60 := by
      rw [show ((0 : ℤ) : ℚ) * 3600 = 0 from by norm_num] at hkey
      linarith
    rw [e]
    linarith

/-- Witness for `parse_format_roundtrip` at `s = 3723.5` (the spec's
Scenario 2, `01:02:03.500`). -/
theorem parse_format_roundtrip_witness :
    |parse_time_to_seconds (format_seconds_to_time (7447/2)) - 7447/2| ≤ 1/1000 :=
  parse_format_roundtrip (7447/2) (by norm_num) (by norm_num)

/-! ## Claims about the Downscale Advisor -/

theorem natSqrt_eval {n k : ℕ} (h1 : k * k ≤ n) (h2 : n < (k + 1) * (k + 1)) :
    Nat.sqrt n = k := (Nat.eq_sqrt.mpr ⟨h1, h2⟩).symm

theorem floorSqrtQ_mono {a b : ℚ} (h : a ≤ b) : floorSqrtQ a ≤ floorSqrtQ b :=
  Nat.sqrt_le_sqrt (Int.toNat_le_toNat (Int.floor_le_floor h))

theorem even_max160 (x : ℕ) : 2 ∣ max 160 (2 * x) := by
  rcases max_cases 160 (2 * x) with ⟨he, _⟩ | ⟨he, _⟩ <;> rw [he]
  · norm_num
  · exact Dvd.intro x rfl

/-- C4: the Downscale Advisor behaves exactly as the claim describes
(`advise_claim`), and any plan it returns has even dimensions, both at
least 160 and both strictly smaller than the source dimensions. -/
theorem advise_matches_claim (w h : Option ℕ) (f : Option ℚ) (k : ℕ) :
    choose_scaling_for_bitrate w h f k = advise_claim w h f k ∧
      ∀ nw nh, choose_scaling_for_bitrate w h f k = some (nw, nh) →
        2 ∣ nw ∧ 2 ∣ nh ∧ 160 ≤ nw ∧ 160 ≤ nh ∧
        ∃ w0 h0, w = some w0 ∧ h = some h0 ∧ nw < w0 ∧ nh < h0 := by
  constructor
  · match w, h, f with
    | none, _, _ => rfl
    | some w0, none, _ => rfl
    | some w0, some h0, none => rfl
    | some w0, some h0, some f0 =>
      by_cases hf : f0 ≤ 0
      · simp [choose_scaling_for_bitrate, advise_claim, hf]
      · by_cases hw : w0 = 0
        · subst hw
          simp [choose_scaling_for_bitrate, advise_claim, hf, floorSqrtQ]
        · by_cases hh : h0 = 0
          · subst hh
            simp [choose_scaling_for_bitrate, advise_claim, hf, hw, floorSqrtQ]
          · simp [choose_scaling_for_bitrate, advise_claim, hf, hw, hh]
  · intro nw nh heq
    match w, h, f with
    | none, _, _ => exact absurd heq (by simp [choose_scaling_for_bitrate])
    | some w0, none, _ => exact absurd heq (by simp [choose_scaling_for_bitrate])
    | some w0, some h0, none => exact absurd heq (by simp [choose_scaling_for_bitrate])
    | some w0, some h0, some f0 =>
      simp only [choose_scaling_for_bitrate] at heq
      split_ifs at heq with hg ht hc
      all_goals first
        | exact Option.noConfusion heq
        | (cases heq
           exact ⟨even_max160 _, even_max160 _, le_max_left _ _, le_max_left _ _,
             w0, h0, rfl, rfl, hc.1, hc.2⟩)

/-- Concrete run of the advisor on the spec's Scenario 3: a 1920x1080
source at 30 fps and 300 kbps has `bits_per_pixel = 25/5184 < 0.06` and is
scaled down to 544x306. -/
theorem choose_scaling_scenario3 :
    choose_scaling_for_bitrate (some 1920) (some 1080) (some 30) 300 = some (544, 306) := by
  have hs1 : floorSqrtQ (2000000/27 : ℚ) = 272 := by
    rw [floorSqrtQ, show ⌊(2000000/27 : ℚ)⌋ = 74074 from Int.floor_eq_iff.mpr (by norm_num),
      show Int.toNat 74074 = 74074 from rfl]
    exact natSqrt_eval (by norm_num) (by norm_num)
  have hs2 : floorSqrtQ (46875/2 : ℚ) = 153 := by
    rw [floorSqrtQ, show ⌊(46875/2 : ℚ)⌋ = 23437 from Int.floor_eq_iff.mpr (by norm_num),
      show Int.toNat 23437 = 23437 from rfl]
    exact natSqrt_eval (by norm_num) (by norm_num)
  simp only [choose_scaling_for_bitrate]
  norm_num [hs1, hs2]

/-- Witness for `advise_matches_claim` at Scenario 3, instantiating the
returned-plan hypothesis with the plan 544x306. -/
theorem advise_matches_claim_witness :
    2 ∣ 544 ∧ 2 ∣ 306 ∧ 160 ≤ 544 ∧ 160 ≤ 306 ∧
      ∃ w0 h0, (some 1920 : Option ℕ) = some w0 ∧ (some 1080 : Option ℕ) = some h0 ∧
        544 < w0 ∧ 306 < h0 :=
  (advise_matches_claim (some 1920) (some 1080) (some 30) 300).2 544 306
    choose_scaling_scenario3

/-- C10: when the probed width or height is present but zero, the guard at
src/app.py line 188 (`not width or not height or ...`) returns `None`
before `bits_per_pixel` is ever computed, so the division by
`width * height * fps` is never performed with a zero divisor and no
division error can be raised. -/
theorem advise_zero_dims_absent (w h : Option ℕ) (f : Option ℚ) (k : ℕ)
    (hz : w = some 0 ∨ h = some 0) :
    choose_scaling_for_bitrate w h f k = none := by
  rcases hz with rfl | rfl
  · cases h <;> cases f <;> simp [choose_scaling_for_bitrate]
  · cases w <;> cases f <;> simp [choose_scaling_for_bitrate]

/-- Witness for `advise_zero_dims_absent` at width 0, height 1080,
30 fps, 300 kbps. -/
theorem advise_zero_dims_absent_witness :
    choose_scaling_for_bitrate (some 0) (some 1080) (some 30) 300 = none :=
  advise_zero_dims_absent (some 0) (some 1080) (some 30) 300 (Or.inl rfl)

/-- C5: with a fixed present resolution and frame rate, a lower video
bitrate never produces a larger target resolution (absent advice counting
as the original resolution) than a higher one, in either dimension. -/
theorem advise_monotone (w h : ℕ) (f : ℚ) (k1 k2 : ℕ) (hk : k1 ≤ k2) :
    (effectiveDims w h (choose_scaling_for_bitrate (some w) (some h) (some f) k1)).1 ≤
        (effectiveDims w h (choose_scaling_for_bitrate (some w) (some h) (some f) k2)).1 ∧
      (effectiveDims w h (choose_scaling_for_bitrate (some w) (some h) (some f) k1)).2 ≤
        (effectiveDims w h (choose_scaling_for_bitrate (some w) (some h) (some f) k2)).2 := by
  by_cases hg : w = 0 ∨ h = 0 ∨ f ≤ 0
  · simp [choose_scaling_for_bitrate, hg, effectiveDims]
  · have hw : w ≠ 0 := fun e => hg (Or.inl e)
    have hh : h ≠ 0 := fun e => hg (Or.inr (Or.inl e))
    have hf : ¬f ≤ 0 := fun e => hg (Or.inr (Or.inr e))
    have hD : (0 : ℚ) < (w : ℚ) * (h : ℚ) * f := by
      have hw' : (0 : ℚ) < (w : ℚ) := by exact_mod_cast Nat.pos_of_ne_zero hw
      have hh' : (0 : ℚ) < (h : ℚ) := by exact_mod_cast Nat.pos_of_ne_zero hh
      exact mul_pos (mul_pos hw' hh') (lt_of_not_le hf)
    have hb : ((k1 : ℚ) * 1000) / ((w : ℚ) * (h : ℚ) * f) ≤
        ((k2 : ℚ) * 1000) / ((w : ℚ) * (h : ℚ) * f) := by
      have hnum : ((k1 : ℚ) * 1000) ≤ ((k2 : ℚ) * 1000) := by
        have : (k1 : ℚ) ≤ (k2 : ℚ) := by exact_mod_cast hk
        linarith
      exact (div_le_div_iff_of_pos_right hD).mpr hnum
    have hmono : ∀ d : ℕ,
        max 160 (2 * floorSqrtQ ((d : ℚ) ^ 2 * (((k1 : ℚ) * 1000) / ((w : ℚ) * (h : ℚ) * f)) * 25 / 6)) ≤
          max 160 (2 * floorSqrtQ ((d : ℚ) ^ 2 * (((k2 : ℚ) * 1000) / ((w : ℚ) * (h : ℚ) * f)) * 25 / 6)) := by
      intro d
      have hsq : (0 : ℚ) ≤ (d : ℚ) ^ 2 := by positivity
      have harg : (d : ℚ) ^ 2 * (((k1 : ℚ) * 1000) / ((w : ℚ) * (h : ℚ) * f)) * 25 / 6 ≤
          (d : ℚ) ^ 2 * (((k2 : ℚ) * 1000) / ((w : ℚ) * (h : ℚ) * f)) * 25 / 6 := by
        have := mul_le_mul_of_nonneg_left hb hsq
        linarith
      exact max_le_max le_rfl (Nat.mul_le_mul_left 2 (floorSqrtQ_mono harg))
    simp only [choose_scaling_for_bitrate, if_neg hg]
    by_cases ht1 : (6/100 : ℚ) ≤ ((k1 : ℚ) * 1000) / ((w : ℚ) * (h : ℚ) * f)
    · have ht2 : (6/100 : ℚ) ≤ ((k2 : ℚ) * 1000) / ((w : ℚ) * (h : ℚ) * f) := le_trans ht1 hb
      rw [if_pos ht1, if_pos ht2]
      simp [effectiveDims]
    · rw [if_neg ht1]
      by_cases ht2 : (6/100 : ℚ) ≤ ((k2 : ℚ) * 1000) / ((w : ℚ) * (h : ℚ) * f)
      · rw [if_pos ht2]
        split_ifs with hc1
        · simp only [effectiveDims]
          exact ⟨le_of_lt hc1.1, le_of_lt hc1.2⟩
        · simp [effectiveDims]
      · rw [if_neg ht2]
        split_ifs with hc1 hc2 hc2
        · simp only [effectiveDims]
          exact ⟨hmono w, hmono h⟩
        · simp only [effectiveDims]
          exact ⟨le_of_lt hc1.1, le_of_lt hc1.2⟩
        · exact absurd ⟨lt_of_le_of_lt (hmono w) hc2.1, lt_of_le_of_lt (hmono h) hc2.2⟩ hc1
        · simp [effectiveDims]

/-- Witness for `advise_monotone`: the Scenario 3 setting with bitrates
300 ≤ 600. -/
theorem advise_monotone_witness :
    (effectiveDims 1920 1080 (choose_scaling_for_bitrate (some 1920) (some 1080) (some 30) 300)).1 ≤
        (effectiveDims 1920 1080 (choose_scaling_for_bitrate (some 1920) (some 1080) (some 30) 600)).1 ∧
      (effectiveDims 1920 1080 (choose_scaling_for_bitrate (some 1920) (some 1080) (some 30) 300)).2 ≤
        (effectiveDims 1920 1080 (choose_scaling_for_bitrate (some 1920) (some 1080) (some 30) 600)).2 :=
  advise_monotone 1920 1080 30 300 600 (by norm_num)

/-! ## Claims about the Encode Plan Builder -/

/-- Pass 1 never carries the mono-downmix option: it encodes with `-an`
(no audio) and `on_export` splices `-ac 1` into pass 2 only. -/
theorem ac_not_mem_pass1 (b : Bool) (src dst : PyPath) (ss duration : Option ℚ)
    (vk ak : ℤ) (sf : Option (ℕ × ℕ)) :
    Arg.lit "-ac" ∉ (build_two_pass_commands b src dst ss duration vk ak sf).1 := by
  cases ss <;> cases duration <;> cases sf <;> cases b <;>
    simp [build_two_pass_commands]

/-- As built (before the `on_export` splice), pass 2 does not carry `-ac`
either. -/
theorem ac_not_mem_pass2 (b : Bool) (src dst : PyPath) (ss duration : Option ℚ)
    (vk ak : ℤ) (sf : Option (ℕ × ℕ)) :
    Arg.lit "-ac" ∉ (build_two_pass_commands b src dst ss duration vk ak sf).2 := by
  cases ss <;> cases duration <;> cases sf <;> cases b <;>
    simp [build_two_pass_commands]

/-- C6 (counterexample): exporting with `audio_kbps = 48 ≤ 64`, the pass-1
argument list contains no mono-downmix option (`-ac`), contradicting the
claim that both passes carry it. -/
theorem mono_downmix_pass1_claim_false :
    (48 : ℤ) ≤ 64 ∧
      Arg.lit "-ac" ∉
        (on_export_commands false ⟨"video", ".mp4"⟩ ⟨"out", ".mp4"⟩ 0 10 1000 48 none).1 := by
  refine ⟨by norm_num, ?_⟩
  simp [on_export_commands, build_two_pass_commands]

/-- C6 (amended): when `audio_kbps ≤ 64` the pass-2 argument list contains
the mono-downmix option `-ac` and the pass-1 list does not (pass 1 disables
audio entirely with `-an`); when `audio_kbps > 64` neither list contains
it. -/
theorem mono_downmix_pass2_only (b : Bool) (src dst : PyPath) (st cs : ℚ)
    (vk ak : ℤ) (sf : Option (ℕ × ℕ)) :
    (ak ≤ 64 →
      Arg.lit "-ac" ∈ (on_export_commands b src dst st cs vk ak sf).2 ∧
        Arg.lit "-ac" ∉ (on_export_commands b src dst st cs vk ak sf).1) ∧
      (64 < ak →
        Arg.lit "-ac" ∉ (on_export_commands b src dst st cs vk ak sf).2 ∧
          Arg.lit "-ac" ∉ (on_export_commands b src dst st cs vk ak sf).1) := by
  constructor
  · intro hak
    rw [on_export_commands, if_pos hak]
    constructor
    · simp
    · exact ac_not_mem_pass1 b src dst (some st) (some cs) vk ak sf
  · intro hak
    rw [on_export_commands, if_neg (not_le.mpr hak)]
    exact ⟨ac_not_mem_pass2 b src dst (some st) (some cs) vk ak sf,
      ac_not_mem_pass1 b src dst (some st) (some cs) vk ak sf⟩

/-- Witness for `mono_downmix_pass2_only` on both sides of the threshold
(`audio_kbps = 48` and `audio_kbps = 128`). -/
theorem mono_downmix_pass2_only_witness :
    (Arg.lit "-ac" ∈ (on_export_commands false ⟨"v", ".mp4"⟩ ⟨"o", ".mp4"⟩ 0 10 1000 48 none).2 ∧
        Arg.lit "-ac" ∉ (on_export_commands false ⟨"v", ".mp4"⟩ ⟨"o", ".mp4"⟩ 0 10 1000 48 none).1) ∧
      (Arg.lit "-ac" ∉ (on_export_commands false ⟨"v", ".mp4"⟩ ⟨"o", ".mp4"⟩ 0 10 1000 128 none).2 ∧
        Arg.lit "-ac" ∉ (on_export_commands false ⟨"v", ".mp4"⟩ ⟨"o", ".mp4"⟩ 0 10 1000 128 none).1) :=
  ⟨(mono_downmix_pass2_only false ⟨"v", ".mp4"⟩ ⟨"o", ".mp4"⟩ 0 10 1000 48 none).1 (by norm_num),
    (mono_downmix_pass2_only false ⟨"v", ".mp4"⟩ ⟨"o", ".mp4"⟩ 0 10 1000 128 none).2 (by norm_num)⟩

/-- C7 (counterexample): `on_export` passes the parsed start time
unconditionally (src/app.py line 515), so a start of exactly 0 still emits
`-ss` in both passes, contradicting the claim that `-ss` appears only for
start > 0. -/
theorem ss_at_zero_claim_false :
    Arg.lit "-ss" ∈
        (on_export_commands false ⟨"video", ".mp4"⟩ ⟨"out", ".mp4"⟩ 0 10 1000 128 none).1 ∧
      Arg.lit "-ss" ∈
        (on_export_commands false ⟨"video", ".mp4"⟩ ⟨"out", ".mp4"⟩ 0 10 1000 128 none).2 := by
  constructor <;> simp [on_export_commands, build_two_pass_commands]

/-- C7 (amended): the builder emits `-ss` exactly when a start value is
passed at all (`ss` is not `None`, whatever its value — `on_export` always
passes one, so an export with start 0 still gets `-ss`), and `-t` exactly
when the clip duration is known. -/
theorem range_args_iff_present (b : Bool) (src dst : PyPath) (ss duration : Option ℚ)
    (vk ak : ℤ) (sf : Option (ℕ × ℕ)) :
    (Arg.lit "-ss" ∈ (build_two_pass_commands b src dst ss duration vk ak sf).1 ↔ ss ≠ none) ∧
      (Arg.lit "-ss" ∈ (build_two_pass_commands b src dst ss duration vk ak sf).2 ↔ ss ≠ none) ∧
      (Arg.lit "-t" ∈ (build_two_pass_commands b src dst ss duration vk ak sf).1 ↔ duration ≠ none) ∧
      (Arg.lit "-t" ∈ (build_two_pass_commands b src dst ss duration vk ak sf).2 ↔ duration ≠ none) := by
  cases ss <;> cases duration <;> cases sf <;> cases b <;>
    simp [build_two_pass_commands]

/-! ## Claims about the Encode Orchestrator -/

/-- C8 (counterexample): when pass 1 fails with an empty error stream, the
source reports `err1 or out1`, i.e. the captured standard output, not the
(empty) captured error stream the claim prescribes. -/
theorem pass1_error_detail_claim_false :
    on_export_encode (fun _ => ⟨1, "stdout diagnostics", ""⟩)
        [Arg.lit "p1"] [Arg.lit "p2"] none 10 =
      (.pass1Error "stdout diagnostics", [[Arg.lit "p1"]]) ∧
      (RunResult.mk 1 "stdout diagnostics" "").err = "" ∧
      "stdout diagnostics" ≠ "" := by
  refine ⟨?_, rfl, by simp⟩
  simp [on_export_encode, strOr]

/-- C8 (amended): whenever pass 1 exits non-zero, the handler reports the
pass-1 failure with the captured error stream (falling back to the captured
standard output when the error stream is empty) and the invocation trace is
exactly the single pass-1 call — pass 2 is never invoked. -/
theorem pass1_failure_stops (run : List Arg → RunResult) (p1 p2 : List Arg)
    (fs : Option ℕ) (mb : ℚ) (hfail : (run p1).code ≠ 0) :
    on_export_encode run p1 p2 fs mb =
      (.pass1Error (strOr (run p1).err (run p1).out), [p1]) := by
  simp [on_export_encode, hfail]

/-- Witness for `pass1_failure_stops`: a runner whose pass 1 exits with
code 1 and error text `boom`. -/
theorem pass1_failure_stops_witness :
    on_export_encode (fun _ => ⟨1, "out", "boom"⟩) [Arg.lit "p1"] [Arg.lit "p2"] none 10 =
      (.pass1Error (strOr "boom" "out"), [[Arg.lit "p1"]]) :=
  pass1_failure_stops (fun _ => ⟨1, "out", "boom"⟩) [Arg.lit "p1"] [Arg.lit "p2"] none 10
    (by norm_num)

/-- C9: whenever both passes exit with code 0, the export succeeds
regardless of the output size; when the size is readable, the advisory is
shown exactly when `deviation_ratio` (that is,
`abs(final_size - target_bytes) / max(target_bytes, 1)`) exceeds 0.08, and
in particular an output exactly equal to `target_bytes` ends cleanly with
no warning. -/
theorem pass2_success_outcome (run : List Arg → RunResult) (p1 p2 : List Arg)
    (fs : Option ℕ) (mb : ℚ) (h1 : (run p1).code = 0) (h2 : (run p2).code = 0) :
    (on_export_encode run p1 p2 fs mb).1.succeeded = true ∧
      (∀ n, fs = some n →
        ((on_export_encode run p1 p2 fs mb).1 = .doneWarned ↔
          (8/100 : ℚ) < deviation_ratio n mb)) ∧
      (∀ n, fs = some n → (n : ℤ) = truncQ (mb * 1024 * 1024) →
        (on_export_encode run p1 p2 fs mb).1 = .doneClean) := by
  have e : on_export_encode run p1 p2 fs mb =
      match fs with
      | none => (.doneNoSize, [p1, p2])
      | some sz =>
        if (8/100 : ℚ) < deviation_ratio sz mb then (.doneWarned, [p1, p2])
        else (.doneClean, [p1, p2]) := by
    simp only [on_export_encode]
    rw [if_neg (by simp [h1]), if_neg (by simp [h2])]
  refine ⟨?_, ?_, ?_⟩
  · rw [e]
    cases fs with
    | none => rfl
    | some n =>
      dsimp only
      split_ifs <;> rfl
  · intro n hn
    subst hn
    rw [e]
    dsimp only
    split_ifs with hr
    · simpa using hr
    · simpa using hr
  · intro n hn htgt
    subst hn
    rw [e]
    dsimp only
    have hzero : deviation_ratio n mb = 0 := by
      rw [deviation_ratio]
      rw [show (n : ℤ) - truncQ (mb * 1024 * 1024) = 0 by omega]
      simp
    rw [if_neg (by rw [hzero]; norm_num)]

/-- Witness for `pass2_success_outcome`: both passes exit 0 and the output
is exactly the 10485760-byte target of a 10 MB request — clean success. -/
theorem pass2_success_outcome_witness :
    (on_export_encode (fun _ => ⟨0, "", ""⟩) [Arg.lit "a"] [Arg.lit "b"]
        (some 10485760) 10).1 = .doneClean :=
  (pass2_success_outcome (fun _ => ⟨0, "", ""⟩) [Arg.lit "a"] [Arg.lit "b"]
      (some 10485760) 10 rfl rfl).2.2 10485760 rfl
    (by norm_num)

/-! ## Bridging the rational square-root floor to `Real.sqrt` -/

/-- For nonnegative input, `floorSqrtQ` computes exactly the floor of the
real square root. -/
theorem floorSqrtQ_eq_floor_real_sqrt {q : ℚ} (hq : 0 ≤ q) :
    (floorSqrtQ q : ℤ) = ⌊Real.sqrt (q : ℝ)⌋ := by
  have hfl : (0 : ℤ) ≤ ⌊q⌋ := Int.floor_nonneg.mpr hq
  have htn : ((⌊q⌋.toNat : ℤ) : ℚ) = (⌊q⌋ : ℚ) := by
    rw [Int.toNat_of_nonneg hfl]
  symm
  rw [Int.floor_eq_iff]
  constructor
  · apply Real.le_sqrt_of_sq_le
    have h1 : (floorSqrtQ q * floorSqrtQ q : ℕ) ≤ ⌊q⌋.toNat := Nat.sqrt_le _
    have h2 : ((⌊q⌋.toNat : ℚ)) ≤ q := by
      rw [show ((⌊q⌋.toNat : ℚ)) = ((⌊q⌋.toNat : ℤ) : ℚ) from by push_cast; ring, htn]
      exact Int.floor_le q
    have h3 : ((floorSqrtQ q : ℚ)) ^ 2 ≤ q := by
      calc ((floorSqrtQ q : ℚ)) ^ 2 = ((floorSqrtQ q * floorSqrtQ q : ℕ) : ℚ) := by
            push_cast; ring
        _ ≤ ((⌊q⌋.toNat : ℚ)) := by exact_mod_cast h1
        _ ≤ q := h2
    exact_mod_cast h3
  · have h1 : ⌊q⌋.toNat < (floorSqrtQ q + 1) * (floorSqrtQ q + 1) := Nat.lt_succ_sqrt _
    have h2 : q < ((⌊q⌋.toNat : ℚ)) + 1 := by
      rw [show ((⌊q⌋.toNat : ℚ)) = ((⌊q⌋.toNat : ℤ) : ℚ) from by push_cast; ring, htn]
      exact Int.lt_floor_add_one q
    have h3 : q < ((floorSqrtQ q : ℚ) + 1) ^ 2 := by
      have : ((⌊q⌋.toNat : ℚ)) + 1 ≤ ((floorSqrtQ q : ℚ) + 1) ^ 2 := by
        have : (⌊q⌋.toNat + 1 : ℕ) ≤ (floorSqrtQ q + 1) * (floorSqrtQ q + 1) := h1
        calc ((⌊q⌋.toNat : ℚ)) + 1 = ((⌊q⌋.toNat + 1 : ℕ) : ℚ) := by push_cast; ring
          _ ≤ (((floorSqrtQ q + 1) * (floorSqrtQ q + 1) : ℕ) : ℚ) := by exact_mod_cast this
          _ = ((floorSqrtQ q : ℚ) + 1) ^ 2 := by push_cast; ring
      linarith [h2]
    rw [Real.sqrt_lt' (by positivity)]
    push_cast
    exact_mod_cast h3

/-- The even-dimension floor of the source,
`int((d * math.sqrt(bpp / 0.06)) // 2 * 2) / 2`, agrees with
`floorSqrtQ (d^2 * bpp * 25 / 6)`: the inner floor of
`d * scale_factor / 2` over the reals equals the rational square-root
floor used in `choose_scaling_for_bitrate`. -/
theorem scaled_dim_eq_real (d : ℕ) (b : ℚ) (hb : 0 ≤ b) :
    (floorSqrtQ ((d : ℚ) ^ 2 * b * 25 / 6) : ℤ) =
      ⌊(d : ℝ) * Real.sqrt ((b : ℝ) / (6/100)) / 2⌋ := by
  have hX : (0 : ℚ) ≤ (d : ℚ) ^ 2 * b * 25 / 6 := by positivity
  rw [floorSqrtQ_eq_floor_real_sqrt hX]
  congr 1
  have hcast : (((d : ℚ) ^ 2 * b * 25 / 6 : ℚ) : ℝ) =
      ((d : ℝ) / 2) ^ 2 * ((b : ℝ) / (6/100)) := by
    push_cast; ring
  rw [hcast, Real.sqrt_mul (by positivity), Real.sqrt_sq (by positivity)]
  ring
